import Mathlib

/-!
Verification of the HMPI water-quality index engine
(`backend/indices.py`, `backend/utils.py`).

Numbers are modelled by `ℚ`; the floating-point not-a-number marker that
the engine uses for "undefined" results is modelled by `none : Option ℚ`.
A sample table is an ordered list of rows, each row an association list
from column name to cell, matching the per-row dictionary access
`row.get(col, None)` performed by the engine.
-/

namespace HMPI

/-- A scalar cell of the sample table, as seen by `_safe_get`:
a NaN value (`pd.isna` is true), a numeric value, or a textual value that
`float(...)` either coerces to a number (`text (some q)`) or rejects
(`text none`). A column absent from the row is simply a missing key. -/
inductive Cell where
  | nan : Cell
  | num : ℚ → Cell
  | text : Option ℚ → Cell
deriving DecidableEq, Repr

abbrev Row := List (String × Cell)

abbrev DataFrame := List Row

/-- The limits mapping: metal identifier → permissible standard `Si`
(`none` models a JSON `null` / Python `None` standard, which the engine
tests with `Si is None`). Dict iteration order is insertion order, hence
an ordered association list. -/
abbrev Limits := List (String × Option ℚ)

/-- `_safe_get(row, col)`: `row.get(col, None)`, `None` on NaN, then
`float(val)` with `None` on failure. -/
def safe_get (row : Row) (col : String) : Option ℚ :=
  match row.lookup col with
  | none => none
  | some Cell.nan => none
  | some (Cell.num q) => some q
  | some (Cell.text o) => o

/-- One iteration of the inner metal loop of `calculate_hmpi`:
skip when `Ci is None or Si is None or Si == 0`, otherwise accumulate
`Qi * Wi` and `Wi` with `Qi = (Ci / Si) * 100` and
`Wi = 1/Si` when `weight_scheme == "1/Si"`, else `Wi = 1`. -/
def hmpiStep (weight_scheme : String) (row : Row) (acc : ℚ × ℚ)
    (p : String × Option ℚ) : ℚ × ℚ :=
  match safe_get row p.1, p.2 with
  | some Ci, some Si =>
      if Si = 0 then acc
      else
        let Qi := Ci / Si * 100
        let Wi := if weight_scheme = "1/Si" then 1 / Si else 1
        (acc.1 + Qi * Wi, acc.2 + Wi)
  | _, _ => acc

/-- The per-row body of `calculate_hmpi`:
`(Qi_sum / Wi_sum) if Wi_sum > 0 else np.nan`. -/
def hmpiRow (weight_scheme : String) (limits : Limits) (row : Row) : Option ℚ :=
  let s := limits.foldl (hmpiStep weight_scheme row) (0, 0)
  if 0 < s.2 then some (s.1 / s.2) else none

/-- `calculate_hmpi`: iterates the rows in order, appending one HMPI value
per row to `hmpi_vals`. -/
def calculate_hmpi (df : DataFrame) (limits : Limits) (weight_scheme : String) :
    List (Option ℚ) :=
  df.foldl (fun acc row => acc ++ [hmpiRow weight_scheme limits row]) []

/-- One iteration of the metal loop of `_row_mci` inside `calculate_mci`:
skip when `Ci is None or Si is None or Si == 0`, otherwise accumulate
`Ci / Si` and record `any_val = True`. -/
def mciStep (row : Row) (acc : ℚ × Bool) (p : String × Option ℚ) : ℚ × Bool :=
  match safe_get row p.1, p.2 with
  | some Ci, some Si => if Si = 0 then acc else (acc.1 + Ci / Si, true)
  | _, _ => acc

/-- `_row_mci(row)`: `s if any_val else np.nan`. -/
def mciRow (limits : Limits) (row : Row) : Option ℚ :=
  let s := limits.foldl (mciStep row) (0, false)
  if s.2 then some s.1 else none

/-- `calculate_mci`: `df.apply(_row_mci, axis=1)`, a per-row map. -/
def calculate_mci (df : DataFrame) (limits : Limits) : List (Option ℚ) :=
  df.map (mciRow limits)

/-- One entry of the `PI_<metal>` column in `calculate_pi_table`:
NaN when `Ci is None or Si is None or Si == 0`, else `Ci / Si`. -/
def piEntry (row : Row) (m : String) (Si : Option ℚ) : Option ℚ :=
  match safe_get row m, Si with
  | some Ci, some s => if s = 0 then none else some (Ci / s)
  | _, _ => none

/-- `calculate_pi_table`: for each metal of the limits mapping (in order)
a column `PI_<metal>` built by iterating the rows in order. -/
def calculate_pi_table (df : DataFrame) (limits : Limits) :
    List (String × List (Option ℚ)) :=
  limits.map (fun p =>
    ("PI_" ++ p.1, df.foldl (fun acc row => acc ++ [piEntry row p.1 p.2]) []))

/-- The three index computations invoked together on one input, as the
caller does (`app.py` lines 123-128). -/
def run_engine (df : DataFrame) (limits : Limits) (weight_scheme : String) :
    List (Option ℚ) × List (Option ℚ) × List (String × List (Option ℚ)) :=
  (calculate_hmpi df limits weight_scheme, calculate_mci df limits,
   calculate_pi_table df limits)

/-- `categorize_hmpi` from `backend/utils.py`. -/
def categorize_hmpi (hmpi_value : Option ℚ) : String :=
  match hmpi_value with
  | none => "Unknown"
  | some x =>
    if x < 50 then "Safe"
    else if 50 ≤ x ∧ x < 100 then "Low Pollution"
    else if 100 ≤ x ∧ x < 200 then "High Pollution"
    else "Very High Pollution"

/-- `categorize_mci` from `backend/utils.py`. -/
def categorize_mci (mci_value : Option ℚ) : String :=
  match mci_value with
  | none => "Unknown"
  | some x =>
    if x < 1 then "Safe"
    else if 1 ≤ x ∧ x < 2 then "Alert"
    else if 2 ≤ x ∧ x < 6 then "Moderately Affected"
    else "Seriously Affected"

/-! Specification-side helpers used to state the claims. -/

/-- Whether metal `p` contributes to a row's aggregation: numeric `Ci`,
present `Si`, and `Si ≠ 0` (the complement of the engine's skip test). -/
def contrib (row : Row) (p : String × Option ℚ) : Bool :=
  match safe_get row p.1, p.2 with
  | some _, some s => decide (s ≠ 0)
  | _, _ => false

/-- The concentration `Ci` of metal `p.1` in `row` (0 when absent; only
used under hypotheses that make it present). -/
def CiD (row : Row) (p : String × Option ℚ) : ℚ :=
  (safe_get row p.1).getD 0

/-- The standard `Si` of metal `p` (0 when absent; only used under
hypotheses that make it present). -/
def SiD (p : String × Option ℚ) : ℚ :=
  p.2.getD 0

/-- The sub-index `Qi = (Ci / Si) × 100` of the specification. -/
def QiSpec (row : Row) (p : String × Option ℚ) : ℚ :=
  CiD row p / SiD p * 100

/-- The weight `Wi`: `1/Si` under the default scheme, `1` otherwise. -/
def WiSpec (weight_scheme : String) (p : String × Option ℚ) : ℚ :=
  if weight_scheme = "1/Si" then 1 / SiD p else 1

/-- The quotient `Ci / Si` (the value of `PI` and the MCI summand). -/
def ciOverSi (row : Row) (p : String × Option ℚ) : ℚ :=
  CiD row p / SiD p

/-! The concrete scenario of the specification:
Limits Pb = 0.01, Cd = 0.003; row Pb = 0.02, Cd = 0.006. -/

def exLimits : Limits := [("Pb", some (1/100)), ("Cd", some (3/1000))]

def exRow : Row := [("Pb", Cell.num (1/50)), ("Cd", Cell.num (3/500))]

/-- A row with the same metals but differing sub-indices
(Pb = 0.02 → Qi 200, Cd = 0.003 → Qi 100). -/
def exRow2 : Row := [("Pb", Cell.num (1/50)), ("Cd", Cell.num (3/1000))]

/-- A limits mapping with a negative standard. -/
def negLimits : Limits := [("Pb", some (-(1/100)))]

/-- A row with a numeric concentration for the negative-standard metal. -/
def negRow : Row := [("Pb", Cell.num (1/50))]

/-! ### The validation pass of `backend/utils.py`

`validate_dataframe` works column-wise: it inspects the dtype of each
required metal column and overwrites non-numeric columns in place with
`pd.to_numeric(..., errors="coerce")`. A column-oriented view of the
table is used here: name → (dtype flag, cells top to bottom). -/

/-- One column: whether its pandas dtype is numeric, and its cells. -/
structure ColData where
  numericDtype : Bool
  vals : List Cell
deriving DecidableEq, Repr

abbrev ColTable := List (String × ColData)

/-- Elementwise effect of `pd.to_numeric(col, errors="coerce")`: numbers
and NaN are kept, coercible text becomes its number, non-coercible text
becomes NaN. -/
def coerceCell (c : Cell) : Cell :=
  match c with
  | Cell.num q => Cell.num q
  | Cell.nan => Cell.nan
  | Cell.text (some q) => Cell.num q
  | Cell.text none => Cell.nan

/-- `pd.to_numeric` on a whole column: the result has numeric dtype. -/
def coerceColumn (cd : ColData) : ColData :=
  { numericDtype := true, vals := cd.vals.map coerceCell }

/-- Overwrite column `c` of the table in place (`df[col] = ...`). -/
def setCol (d : ColTable) (c : String) (cd : ColData) : ColTable :=
  d.map (fun q => if q.1 = c then (q.1, cd) else q)

/-- The validation report (`report` dict of `validate_dataframe`). -/
structure Report where
  missing_columns : List String
  non_numeric : List String
  missing_coords : Nat
  rows : Nat
  median_magnitude : List (String × Option ℚ)
deriving DecidableEq, Repr

/-- One iteration of the `for col in required_metal_columns` loop:
absent column → recorded missing; present non-numeric column →
overwritten with its coercion and recorded in `non_numeric`. -/
def validateStep (acc : ColTable × Report) (col : String) : ColTable × Report :=
  match acc.1.lookup col with
  | none =>
      (acc.1, { acc.2 with missing_columns := acc.2.missing_columns ++ [col] })
  | some cd =>
      if cd.numericDtype then acc
      else (setCol acc.1 col (coerceColumn cd),
            { acc.2 with non_numeric := acc.2.non_numeric ++ [col] })

/-- `abs` as the source computes it on concentrations. -/
def ratAbs (q : ℚ) : ℚ := if q < 0 then -q else q

/-- The numeric entries of a column (`dropna` on a numeric column). -/
def numericVals (cd : ColData) : List ℚ :=
  cd.vals.filterMap (fun c => match c with | Cell.num q => some q | _ => none)

/-- Count of NaN entries of a column (`isna().sum()`). -/
def countNa (cd : ColData) : Nat :=
  cd.vals.countP (fun c => decide (c = Cell.nan))

/-- Pandas median with linear interpolation: middle element, or the mean
of the two middle elements; `none` on an empty list. -/
def median (xs : List ℚ) : Option ℚ :=
  let s := xs.insertionSort (· ≤ ·)
  let n := s.length
  if n = 0 then none
  else if n % 2 = 1 then s[n / 2]?
  else match s[n / 2 - 1]?, s[n / 2]? with
       | some a, some b => some ((a + b) / 2)
       | _, _ => none

/-- `missing_coords`: when both coordinate columns exist, the number of
missing latitude plus missing longitude entries. -/
def coordReport (d : ColTable) (rep : Report) : Report :=
  match d.lookup "latitude", d.lookup "longitude" with
  | some la, some lo => { rep with missing_coords := countNa la + countNa lo }
  | _, _ => rep

/-- The `median_magnitude` entries: for each required column present in
the (already coerced) table, the median of the absolute numeric values. -/
def magnitudeReport (d : ColTable) (required : List String) :
    List (String × Option ℚ) :=
  required.filterMap (fun col =>
    match d.lookup col with
    | some cd => some (col, median ((numericVals cd).map ratAbs))
    | none => none)

/-- Number of rows of the column table (`len(df)`). -/
def nRows (d : ColTable) : Nat :=
  match d with
  | [] => 0
  | c :: _ => c.2.vals.length

/-- `validate_dataframe(df, required_metal_columns)`: returns the table
(mutated in place in the source), the `valid` flag and the report. -/
def validate_dataframe (df : ColTable) (required : List String) :
    ColTable × Bool × Report :=
  let init : Report :=
    { missing_columns := [], non_numeric := [], missing_coords := 0,
      rows := nRows df, median_magnitude := [] }
  let st := required.foldl validateStep (df, init)
  let rep := coordReport st.1 st.2
  let rep2 := { rep with median_magnitude := magnitudeReport st.1 required }
  (st.1, rep2.missing_columns.isEmpty, rep2)

/-! ### Bridge lemmas between the engine's folds and the specification sums -/

/-- The HMPI accumulation step, rephrased through `contrib`. -/
lemma hmpiStep_eq (ws : String) (row : Row) (acc : ℚ × ℚ) (p : String × Option ℚ) :
    hmpiStep ws row acc p =
      if contrib row p then
        (acc.1 + QiSpec row p * WiSpec ws p, acc.2 + WiSpec ws p)
      else acc := by
  unfold hmpiStep contrib QiSpec WiSpec CiD SiD
  cases h1 : safe_get row p.1 <;> cases h2 : p.2 <;> simp [h1, h2]

/-- The inner metal loop of `calculate_hmpi` accumulates the two sums of
the specification, restricted to the contributing metals. -/
lemma foldl_hmpiStep (ws : String) (row : Row) (limits : Limits) :
    ∀ a b : ℚ, limits.foldl (hmpiStep ws row) (a, b) =
      (a + ((limits.filter (contrib row)).map
              (fun p => QiSpec row p * WiSpec ws p)).sum,
       b + ((limits.filter (contrib row)).map (WiSpec ws)).sum) := by
  induction limits with
  | nil => intro a b; simp
  | cons p t ih =>
    intro a b
    rw [List.foldl_cons, hmpiStep_eq]
    cases hc : contrib row p <;>
      simp [List.filter_cons, hc, ih, add_assoc]

/-- The per-row HMPI in closed form: the weighted mean of the `Qi` over
the contributing metals when the total weight is positive, NaN otherwise. -/
lemma hmpiRow_spec (ws : String) (limits : Limits) (row : Row) :
    hmpiRow ws limits row =
      (if 0 < ((limits.filter (contrib row)).map (WiSpec ws)).sum
       then some ((((limits.filter (contrib row)).map
                      (fun p => QiSpec row p * WiSpec ws p)).sum) /
                  ((limits.filter (contrib row)).map (WiSpec ws)).sum)
       else none) := by
  unfold hmpiRow
  rw [foldl_hmpiStep]
  simp

/-- The MCI accumulation step, rephrased through `contrib`. -/
lemma mciStep_eq (row : Row) (acc : ℚ × Bool) (p : String × Option ℚ) :
    mciStep row acc p =
      if contrib row p then (acc.1 + ciOverSi row p, true) else acc := by
  unfold mciStep contrib ciOverSi CiD SiD
  cases h1 : safe_get row p.1 <;> cases h2 : p.2 <;> simp [h1, h2]

/-- The metal loop of `_row_mci` accumulates `Σ Ci/Si` over the
contributing metals and tracks whether any metal contributed. -/
lemma foldl_mciStep (row : Row) (limits : Limits) :
    ∀ (a : ℚ) (b : Bool), limits.foldl (mciStep row) (a, b) =
      (a + ((limits.filter (contrib row)).map (ciOverSi row)).sum,
       b || limits.any (contrib row)) := by
  induction limits with
  | nil => intro a b; simp
  | cons p t ih =>
    intro a b
    rw [List.foldl_cons, mciStep_eq]
    cases hc : contrib row p <;>
      simp [List.filter_cons, hc, ih, add_assoc]

/-- The per-row MCI in closed form. -/
lemma mciRow_spec (limits : Limits) (row : Row) :
    mciRow limits row =
      (if limits.any (contrib row)
       then some (((limits.filter (contrib row)).map (ciOverSi row)).sum)
       else none) := by
  unfold mciRow
  rw [foldl_mciStep]
  cases hc : limits.any (contrib row) <;> simp [hc]

/-- A `PI` entry in closed form. -/
lemma piEntry_eq (row : Row) (m : String) (Si : Option ℚ) :
    piEntry row m Si =
      (if contrib row (m, Si) then some (ciOverSi row (m, Si)) else none) := by
  unfold piEntry contrib ciOverSi CiD SiD
  cases h1 : safe_get row m <;> cases Si <;> simp [h1]

/-- Appending one image per element from the left builds the map. -/
lemma foldl_append_eq_map {α β : Type} (f : α → β) :
    ∀ (l : List α) (init : List β),
      l.foldl (fun acc x => acc ++ [f x]) init = init ++ l.map f := by
  intro l
  induction l with
  | nil => intro init; simp
  | cons x t ih => intro init; simp [ih]

/-- `calculate_hmpi` is the per-row map of `hmpiRow`. -/
lemma calculate_hmpi_eq_map (df : DataFrame) (limits : Limits) (ws : String) :
    calculate_hmpi df limits ws = df.map (hmpiRow ws limits) := by
  unfold calculate_hmpi
  rw [foldl_append_eq_map]
  simp

/-- `calculate_pi_table` is, column by column, the per-row map of
`piEntry`. -/
lemma calculate_pi_table_eq_map (df : DataFrame) (limits : Limits) :
    calculate_pi_table df limits =
      limits.map (fun p => ("PI_" ++ p.1, df.map (fun row => piEntry row p.1 p.2))) := by
  unfold calculate_pi_table
  refine List.map_congr_left ?_
  intro p _
  rw [foldl_append_eq_map]
  simp

/-! ### Claims -/

/-- C1: for every row in which every tracked metal has a numeric
concentration and a positive standard, `calculate_hmpi` returns exactly
`Σ(Qi × Wi) / Σ(Wi)` with `Qi = (Ci/Si)×100` and `Wi = 1/Si` under the
default scheme or `Wi = 1` under the equal scheme; in particular for
Limits Pb = 0.01, Cd = 0.003 and row Pb = 0.02, Cd = 0.006 it returns
200. -/
theorem C1_hmpi_weighted_formula (limits : Limits) (row : Row) (ws : String)
    (hall : ∀ p ∈ limits, (safe_get row p.1).isSome ∧ ∃ s, p.2 = some s ∧ 0 < s)
    (hne : limits ≠ []) :
    hmpiRow ws limits row =
      some ((limits.map (fun p => QiSpec row p * WiSpec ws p)).sum /
            (limits.map (WiSpec ws)).sum) ∧
    calculate_hmpi [exRow] exLimits "1/Si" = [some 200] := by
  constructor
  · have hfilter : limits.filter (contrib row) = limits := by
      rw [List.filter_eq_self]
      intro p hp
      obtain ⟨hc, s, hs, hspos⟩ := hall p hp
      cases hsg : safe_get row p.1 with
      | none => rw [hsg] at hc; simp at hc
      | some q => simp [contrib, hsg, hs, ne_of_gt hspos]
    have hpos : 0 < (limits.map (WiSpec ws)).sum := by
      apply List.sum_pos
      · intro x hx
        obtain ⟨p, hp, hpx⟩ := List.mem_map.mp hx
        obtain ⟨-, s, hs, hspos⟩ := hall p hp
        rw [← hpx]
        unfold WiSpec SiD
        rw [hs]
        split_ifs
        · simpa using one_div_pos.mpr hspos
        · exact one_pos
      · simpa using hne
    rw [hmpiRow_spec, hfilter, if_pos hpos]
  · simp only [calculate_hmpi, hmpiRow, hmpiStep, safe_get, exRow, exLimits,
      List.foldl, List.lookup, List.nil_append, String.reduceBEq, String.reduceEq]
    norm_num

/-- Witness for C1: the hypotheses hold at the concrete scenario and the
conclusion evaluates there. -/
theorem C1_witness :
    (∀ p ∈ exLimits, (safe_get exRow p.1).isSome ∧ ∃ s, p.2 = some s ∧ 0 < s) ∧
    hmpiRow "1/Si" exLimits exRow =
      some ((exLimits.map (fun p => QiSpec exRow p * WiSpec "1/Si" p)).sum /
            (exLimits.map (WiSpec "1/Si")).sum) := by
  have hall : ∀ p ∈ exLimits, (safe_get exRow p.1).isSome ∧
      ∃ s, p.2 = some s ∧ 0 < s := by
    intro p hp
    simp only [exLimits, List.mem_cons, List.not_mem_nil, or_false] at hp
    rcases hp with rfl | rfl <;>
      exact ⟨by simp [safe_get, exRow, List.lookup], _, rfl, by norm_num⟩
  exact ⟨hall,
    (C1_hmpi_weighted_formula exLimits exRow "1/Si" hall (by simp [exLimits])).1⟩

/-- Counterexample to C2: a metal with a negative standard is not
excluded — for Limits Pb = −0.01 and row Pb = 0.02 the code returns
MCI = −2 (not the undefined marker) and PI_Pb = −2 (not NaN). -/
theorem C2_counterexample :
    calculate_mci [negRow] negLimits = [some (-2)] ∧
    calculate_pi_table [negRow] negLimits = [("PI_Pb", [some (-2)])] ∧
    (some (-2 : ℚ)).isSome = true := by
  refine ⟨?_, ?_, by simp⟩
  · simp only [calculate_mci, mciRow, mciStep, safe_get, negRow, negLimits,
      List.foldl, List.lookup, List.map, String.reduceBEq, String.reduceEq]
    norm_num
  · simp only [calculate_pi_table, piEntry, safe_get, negRow, negLimits,
      List.foldl, List.lookup, List.map, List.nil_append,
      String.reduceBEq, String.reduceEq]
    norm_num
    rfl

/-- C2 (amended): for every metal whose standard is missing or zero —
but not negative — the metal contributes nothing to any row's HMPI or
MCI accumulation (the loop step is the identity), and its `PI_<metal>`
column is NaN in every row. -/
theorem C2_zero_standard_excluded (ws : String) (m : String) (Si : Option ℚ)
    (h : Si = none ∨ Si = some 0) :
    (∀ row acc, hmpiStep ws row acc (m, Si) = acc) ∧
    (∀ row acc, mciStep row acc (m, Si) = acc) ∧
    (∀ row, piEntry row m Si = none) ∧
    (∀ (df : DataFrame) (limits : Limits), (m, Si) ∈ limits →
      ("PI_" ++ m, df.map fun _ => (none : Option ℚ)) ∈
        calculate_pi_table df limits) := by
  have hcontrib : ∀ row : Row, contrib row (m, Si) = false := by
    intro row
    unfold contrib
    rcases h with rfl | rfl <;>
      cases hsg : safe_get row m <;> simp [hsg]
  refine ⟨?_, ?_, ?_, ?_⟩
  · intro row acc
    rw [hmpiStep_eq, hcontrib row]
    simp
  · intro row acc
    rw [mciStep_eq, hcontrib row]
    simp
  · intro row
    rw [piEntry_eq, hcontrib row]
    simp
  · intro df limits hmem
    rw [calculate_pi_table_eq_map]
    have : (df.map fun row => piEntry row m Si) = df.map fun _ => (none : Option ℚ) := by
      apply List.map_congr_left
      intro r _
      rw [piEntry_eq, hcontrib r]
      simp
    refine List.mem_map.mpr ⟨(m, Si), hmem, ?_⟩
    simpa using this

/-- Witness for C2 (amended): the zero-standard case at concrete inputs. -/
theorem C2_witness :
    mciStep [("Pb", Cell.num 2)] (0, false) ("Pb", some 0) = (0, false) ∧
    piEntry [("Pb", Cell.num 2)] "Pb" (some 0) = none := by
  have h := C2_zero_standard_excluded "1/Si" "Pb" (some 0) (Or.inr rfl)
  exact ⟨h.2.1 [("Pb", Cell.num 2)] (0, false), h.2.2.1 [("Pb", Cell.num 2)]⟩

/-- C3: the two classifiers are total with half-open intervals inclusive
on the lower bound — `categorize_hmpi` maps NaN to Unknown, `< 50` to
Safe, `[50, 100)` to Low Pollution, `[100, 200)` to High Pollution and
`≥ 200` to Very High Pollution; `categorize_mci` maps NaN to Unknown,
`< 1` to Safe, `[1, 2)` to Alert, `[2, 6)` to Moderately Affected and
`≥ 6` to Seriously Affected; the boundary values fall into the upper
category. -/
theorem C3_categorize_boundaries :
    categorize_hmpi none = "Unknown" ∧
    (∀ x : ℚ, x < 50 → categorize_hmpi (some x) = "Safe") ∧
    (∀ x : ℚ, 50 ≤ x → x < 100 → categorize_hmpi (some x) = "Low Pollution") ∧
    (∀ x : ℚ, 100 ≤ x → x < 200 → categorize_hmpi (some x) = "High Pollution") ∧
    (∀ x : ℚ, 200 ≤ x → categorize_hmpi (some x) = "Very High Pollution") ∧
    categorize_mci none = "Unknown" ∧
    (∀ x : ℚ, x < 1 → categorize_mci (some x) = "Safe") ∧
    (∀ x : ℚ, 1 ≤ x → x < 2 → categorize_mci (some x) = "Alert") ∧
    (∀ x : ℚ, 2 ≤ x → x < 6 → categorize_mci (some x) = "Moderately Affected") ∧
    (∀ x : ℚ, 6 ≤ x → categorize_mci (some x) = "Seriously Affected") ∧
    categorize_hmpi (some 50) = "Low Pollution" ∧
    categorize_hmpi (some 100) = "High Pollution" ∧
    categorize_hmpi (some 200) = "Very High Pollution" ∧
    categorize_mci (some 1) = "Alert" ∧
    categorize_mci (some 2) = "Moderately Affected" ∧
    categorize_mci (some 6) = "Seriously Affected" := by
  refine ⟨rfl, ?_, ?_, ?_, ?_, rfl, ?_, ?_, ?_, ?_, ?_, ?_, ?_, ?_, ?_, ?_⟩
  · intro x h1
    simp only [categorize_hmpi]
    rw [if_pos h1]
  · intro x h1 h2
    simp only [categorize_hmpi]
    rw [if_neg (by linarith), if_pos ⟨h1, h2⟩]
  · intro x h1 h2
    simp only [categorize_hmpi]
    rw [if_neg (by linarith), if_neg (fun hc => by linarith [hc.2]),
      if_pos ⟨h1, h2⟩]
  · intro x h1
    simp only [categorize_hmpi]
    rw [if_neg (by linarith), if_neg (fun hc => by linarith [hc.2]),
      if_neg (fun hc => by linarith [hc.2])]
  · intro x h1
    simp only [categorize_mci]
    rw [if_pos h1]
  · intro x h1 h2
    simp only [categorize_mci]
    rw [if_neg (by linarith), if_pos ⟨h1, h2⟩]
  · intro x h1 h2
    simp only [categorize_mci]
    rw [if_neg (by linarith), if_neg (fun hc => by linarith [hc.2]),
      if_pos ⟨h1, h2⟩]
  · intro x h1
    simp only [categorize_mci]
    rw [if_neg (by linarith), if_neg (fun hc => by linarith [hc.2]),
      if_neg (fun hc => by linarith [hc.2])]
  · simp only [categorize_hmpi]
    norm_num
  · simp only [categorize_hmpi]
    norm_num
  · simp only [categorize_hmpi]
    norm_num
  · simp only [categorize_mci]
    norm_num
  · simp only [categorize_mci]
    norm_num
  · simp only [categorize_mci]
    norm_num

/-- Witness for C3: the classifiers evaluated at representative points. -/
theorem C3_witness :
    categorize_hmpi (some 49) = "Safe" ∧
    categorize_hmpi (some 99) = "Low Pollution" ∧
    categorize_hmpi (some 199) = "High Pollution" ∧
    categorize_hmpi (some 1000) = "Very High Pollution" ∧
    categorize_mci (some 0) = "Safe" ∧
    categorize_mci (some (3/2)) = "Alert" ∧
    categorize_mci (some 4) = "Moderately Affected" ∧
    categorize_mci (some 7) = "Seriously Affected" := by
  have h := C3_categorize_boundaries
  exact ⟨h.2.1 49 (by norm_num),
    h.2.2.1 99 (by norm_num) (by norm_num),
    h.2.2.2.1 199 (by norm_num) (by norm_num),
    h.2.2.2.2.1 1000 (by norm_num),
    h.2.2.2.2.2.2.1 0 (by norm_num),
    h.2.2.2.2.2.2.2.1 (3/2) (by norm_num) (by norm_num),
    h.2.2.2.2.2.2.2.2.1 4 (by norm_num) (by norm_num),
    h.2.2.2.2.2.2.2.2.2.1 7 (by norm_num)⟩

/-- C4: for every row, `calculate_mci` returns `Σ Ci/Si` over exactly the
contributing metals (equal to the sum of the defined `PI` values), and
`calculate_pi_table` returns `Ci/Si` per contributing metal, with no
weighting-scheme argument at all; for the concrete scenario this gives
PI_Pb = 2, PI_Cd = 2, MCI = 4. -/
theorem C4_mci_pi_formula (limits : Limits) (row : Row) (m : String)
    (Si : Option ℚ) :
    mciRow limits row =
      (if limits.any (contrib row)
       then some (((limits.filter (contrib row)).map (ciOverSi row)).sum)
       else none) ∧
    piEntry row m Si =
      (if contrib row (m, Si) then some (ciOverSi row (m, Si)) else none) ∧
    ((limits.map fun p => piEntry row p.1 p.2).filterMap id =
      (limits.filter (contrib row)).map (ciOverSi row)) ∧
    calculate_mci [exRow] exLimits = [some 4] ∧
    calculate_pi_table [exRow] exLimits =
      [("PI_Pb", [some 2]), ("PI_Cd", [some 2])] := by
  refine ⟨mciRow_spec limits row, piEntry_eq row m Si, ?_, ?_, ?_⟩
  · induction limits with
    | nil => simp
    | cons p t ih =>
      rw [List.map_cons, List.filter_cons, piEntry_eq]
      cases hc : contrib row (p.1, p.2) <;>
        simp_all [List.filterMap_cons]
  · simp only [calculate_mci, mciRow, mciStep, safe_get, exRow, exLimits,
      List.foldl, List.lookup, List.map, String.reduceBEq, String.reduceEq]
    norm_num
  · simp only [calculate_pi_table, piEntry, safe_get, exRow, exLimits,
      List.foldl, List.lookup, List.map, List.nil_append,
      String.reduceBEq, String.reduceEq]
    norm_num
    constructor <;> rfl

/-- C5: a row in which no tracked metal contributes gets the undefined
marker from `calculate_hmpi`, `calculate_mci` and every `PI` entry — the
row is kept, not dropped and not defaulted to zero — and both categories
are Unknown. -/
theorem C5_no_contribution_undefined (limits : Limits) (row : Row) (ws : String)
    (h : ∀ p ∈ limits, contrib row p = false) :
    hmpiRow ws limits row = none ∧
    mciRow limits row = none ∧
    (∀ p ∈ limits, piEntry row p.1 p.2 = none) ∧
    categorize_hmpi (hmpiRow ws limits row) = "Unknown" ∧
    categorize_mci (mciRow limits row) = "Unknown" ∧
    calculate_hmpi [row] limits ws = [none] ∧
    calculate_mci [row] limits = [none] := by
  have hfilter : limits.filter (contrib row) = [] := by
    rw [List.filter_eq_nil_iff]
    intro p hp
    simp [h p hp]
  have hany : limits.any (contrib row) = false := by
    rw [List.any_eq_false]
    intro p hp
    simp [h p hp]
  have hH : hmpiRow ws limits row = none := by
    rw [hmpiRow_spec, hfilter]
    simp
  have hM : mciRow limits row = none := by
    rw [mciRow_spec, hany]
    simp
  refine ⟨hH, hM, ?_, ?_, ?_, ?_, ?_⟩
  · intro p hp
    rw [piEntry_eq]
    have := h p hp
    simp_all
  · rw [hH]; rfl
  · rw [hM]; rfl
  · rw [calculate_hmpi_eq_map]
    simp [hH]
  · unfold calculate_mci
    simp [hM]

/-- Witness for C5: a one-metal limits mapping and a row missing that
metal. -/
theorem C5_witness :
    hmpiRow "1/Si" [("Pb", some 1)] [] = none ∧
    mciRow [("Pb", some 1)] [] = none ∧
    categorize_hmpi (hmpiRow "1/Si" [("Pb", some 1)] []) = "Unknown" ∧
    categorize_mci (mciRow [("Pb", some 1)] []) = "Unknown" := by
  have h := C5_no_contribution_undefined [("Pb", some 1)] [] "1/Si" (by decide)
  exact ⟨h.1, h.2.1, h.2.2.2.1, h.2.2.2.2.1⟩

/-- Counterexample to C6: for the row Pb = 0.02, Cd = 0.006 both metals
contribute and their standards differ (0.01 ≠ 0.003), yet switching the
weighting scheme from "1/Si" to "equal" leaves the HMPI unchanged (both
give 200, since both sub-indices Qi coincide). -/
theorem C6_counterexample :
    contrib exRow ("Pb", some (1/100)) = true ∧
    contrib exRow ("Cd", some (3/1000)) = true ∧
    (3 : ℚ)/1000 < 1/100 ∧
    calculate_hmpi [exRow] exLimits "1/Si" =
      calculate_hmpi [exRow] exLimits "equal" := by
  refine ⟨?_, ?_, by norm_num, ?_⟩
  · simp only [contrib, safe_get, exRow, List.lookup, String.reduceBEq,
      String.reduceEq]
    norm_num
  · simp only [contrib, safe_get, exRow, List.lookup, String.reduceBEq,
      String.reduceEq]
    norm_num
  · simp only [calculate_hmpi, hmpiRow, hmpiStep, safe_get, exRow, exLimits,
      List.foldl, List.lookup, List.nil_append, String.reduceBEq,
      String.reduceEq]
    norm_num

/-- C6 (amended): changing the weighting scheme never changes the output
of `calculate_mci` or `calculate_pi_table`, and for a row whose
contributing metals have differing standards it can change the HMPI value
(it does when the sub-indices `Qi` differ) but does not always (the HMPI
is unchanged when all `Qi` coincide). -/
theorem C6_weight_scheme_effect (df : DataFrame) (limits : Limits) :
    (run_engine df limits "1/Si").2 = (run_engine df limits "equal").2 ∧
    calculate_hmpi [exRow2] exLimits "1/Si" = [some (1600/13)] ∧
    calculate_hmpi [exRow2] exLimits "equal" = [some 150] ∧
    (1600 : ℚ)/13 < 150 ∧
    calculate_hmpi [exRow] exLimits "1/Si" =
      calculate_hmpi [exRow] exLimits "equal" := by
  refine ⟨rfl, ?_, ?_, by norm_num, ?_⟩
  · simp only [calculate_hmpi, hmpiRow, hmpiStep, safe_get, exRow2, exLimits,
      List.foldl, List.lookup, List.nil_append, String.reduceBEq,
      String.reduceEq]
    norm_num
  · simp only [calculate_hmpi, hmpiRow, hmpiStep, safe_get, exRow2, exLimits,
      List.foldl, List.lookup, List.nil_append, String.reduceBEq,
      String.reduceEq]
    norm_num
  · simp only [calculate_hmpi, hmpiRow, hmpiStep, safe_get, exRow, exLimits,
      List.foldl, List.lookup, List.nil_append, String.reduceBEq,
      String.reduceEq]
    norm_num

/-- C7: the index computations are total — they produce one value per
input row whatever the cells hold — and a missing, NaN or
non-float-coercible concentration is uniformly read back as missing by
`_safe_get`. -/
theorem C7_totality (df : DataFrame) (limits : Limits) (ws : String) :
    (calculate_hmpi df limits ws).length = df.length ∧
    (calculate_mci df limits).length = df.length ∧
    (∀ c ∈ calculate_pi_table df limits, c.2.length = df.length) ∧
    (∀ (row : Row) (m : String),
      row.lookup m = some (Cell.text none) → safe_get row m = none) ∧
    (∀ (row : Row) (m : String),
      row.lookup m = some Cell.nan → safe_get row m = none) ∧
    (∀ (row : Row) (m : String),
      row.lookup m = none → safe_get row m = none) := by
  refine ⟨?_, ?_, ?_, ?_, ?_, ?_⟩
  · rw [calculate_hmpi_eq_map]
    simp
  · unfold calculate_mci
    simp
  · intro c hc
    rw [calculate_pi_table_eq_map] at hc
    obtain ⟨p, -, hpc⟩ := List.mem_map.mp hc
    rw [← hpc]
    simp
  · intro row m hl
    unfold safe_get
    rw [hl]
  · intro row m hl
    unfold safe_get
    rw [hl]
  · intro row m hl
    unfold safe_get
    rw [hl]

/-- Witness for C7: a table whose only cell is a non-coercible text
value still yields one (undefined) output per row. -/
theorem C7_witness :
    ("PI_Pb", [(none : Option ℚ)]).2.length = 1 ∧
    safe_get [("Pb", Cell.text none)] "Pb" = none ∧
    safe_get [("Pb", Cell.nan)] "Pb" = none ∧
    safe_get [] "Pb" = none := by
  have h := C7_totality [[("Pb", Cell.text none)]] [("Pb", some 1)] "1/Si"
  refine ⟨?_, h.2.2.2.1 [("Pb", Cell.text none)] "Pb" rfl,
    h.2.2.2.2.1 [("Pb", Cell.nan)] "Pb" rfl,
    h.2.2.2.2.2 [] "Pb" rfl⟩
  exact h.2.2.1 ("PI_Pb", [none]) (by decide)

/-- C8: the outputs of the three index computations have the same row
count and order as the input, output row `i` is computed solely from
input row `i`, and the PI table lists one column per metal of the limits
mapping in order. -/
theorem C8_row_alignment (df : DataFrame) (limits : Limits) (ws : String)
    (i : Nat) (h : i < df.length) :
    (calculate_hmpi df limits ws).length = df.length ∧
    (calculate_mci df limits).length = df.length ∧
    calculate_pi_table df limits =
      limits.map (fun p => ("PI_" ++ p.1, df.map (fun row => piEntry row p.1 p.2))) ∧
    (calculate_hmpi df limits ws)[i]? = some (hmpiRow ws limits df[i]) ∧
    (calculate_mci df limits)[i]? = some (mciRow limits df[i]) ∧
    (∀ p ∈ limits, (df.map (fun row => piEntry row p.1 p.2))[i]? =
      some (piEntry df[i] p.1 p.2)) := by
  refine ⟨?_, ?_, calculate_pi_table_eq_map df limits, ?_, ?_, ?_⟩
  · rw [calculate_hmpi_eq_map]
    simp
  · unfold calculate_mci
    simp
  · rw [calculate_hmpi_eq_map, List.getElem?_map, List.getElem?_eq_getElem h]
    rfl
  · unfold calculate_mci
    rw [List.getElem?_map, List.getElem?_eq_getElem h]
    rfl
  · intro p _
    rw [List.getElem?_map, List.getElem?_eq_getElem h]
    rfl

/-- Witness for C8: a one-row table, read back at index 0. -/
theorem C8_witness :
    (calculate_hmpi [[("Pb", Cell.nan)]] [("Pb", some 1)] "1/Si").length = 1 ∧
    (calculate_hmpi [[("Pb", Cell.nan)]] [("Pb", some 1)] "1/Si")[0]? =
      some (hmpiRow "1/Si" [("Pb", some 1)] [("Pb", Cell.nan)]) := by
  have h := C8_row_alignment [[("Pb", Cell.nan)]] [("Pb", some 1)] "1/Si" 0
    (by decide)
  exact ⟨h.1, h.2.2.2.1⟩

/-- C9: the three index computations are deterministic — two invocations
on identical inputs produce identical outputs, undefined markers
included; there is no randomness and no hidden state. -/
theorem C9_deterministic (df1 df2 : DataFrame) (l1 l2 : Limits)
    (w1 w2 : String) (hdf : df1 = df2) (hl : l1 = l2) (hw : w1 = w2) :
    run_engine df1 l1 w1 = run_engine df2 l2 w2 := by
  rw [hdf, hl, hw]

/-- Witness for C9: repeated invocation on a concrete input. -/
theorem C9_witness :
    run_engine [exRow] exLimits "1/Si" = run_engine [exRow] exLimits "1/Si" :=
  C9_deterministic [exRow] [exRow] exLimits exLimits "1/Si" "1/Si" rfl rfl rfl

/-! ### Lemmas for the validation pass -/

/-- Association-list lookup at the head key. -/
lemma lookup_cons_self {β : Type} (a : String) (v : β) (t : List (String × β)) :
    List.lookup a ((a, v) :: t) = some v := by
  simp [List.lookup]

/-- Association-list lookup skipping a mismatching head key. -/
lemma lookup_cons_ne {β : Type} (a k : String) (v : β) (t : List (String × β))
    (h : a ≠ k) : List.lookup a ((k, v) :: t) = List.lookup a t := by
  have hb : (a == k) = false := by simp [h]
  simp [List.lookup, hb]

/-- `setCol` unfolded one column at a time. -/
lemma setCol_cons (k : String) (v : ColData) (t : ColTable) (c : String)
    (cd : ColData) :
    setCol ((k, v) :: t) c cd =
      (if k = c then (k, cd) else (k, v)) :: setCol t c cd := by
  simp only [setCol, List.map_cons]

/-- Overwriting an existing column makes lookup return the new value. -/
lemma lookup_setCol_self (d : ColTable) (c : String) (cd0 new : ColData)
    (h : d.lookup c = some cd0) : (setCol d c new).lookup c = some new := by
  induction d with
  | nil => simp at h
  | cons q t ih =>
    obtain ⟨k, v⟩ := q
    rw [setCol_cons]
    by_cases hk : k = c
    · subst hk
      rw [if_pos rfl, lookup_cons_self]
    · rw [if_neg hk, lookup_cons_ne _ _ _ _ (Ne.symm hk)]
      rw [lookup_cons_ne _ _ _ _ (Ne.symm hk)] at h
      exact ih h

/-- Overwriting one column leaves lookups of other columns unchanged. -/
lemma lookup_setCol_ne (d : ColTable) (c cx : String) (new : ColData)
    (h : c ≠ cx) : (setCol d cx new).lookup c = d.lookup c := by
  induction d with
  | nil => simp [setCol]
  | cons q t ih =>
    obtain ⟨k, v⟩ := q
    rw [setCol_cons]
    by_cases hk : k = cx
    · rw [if_pos hk, lookup_cons_ne _ _ _ _ (fun hc => h (hc.trans hk)),
        lookup_cons_ne _ _ _ _ (fun hc => h (hc.trans hk))]
      exact ih
    · rw [if_neg hk]
      by_cases hck : c = k
      · subst hck
        rw [lookup_cons_self, lookup_cons_self]
      · rw [lookup_cons_ne _ _ _ _ hck, lookup_cons_ne _ _ _ _ hck]
        exact ih

/-- Once a column holds a numeric-dtype value and is recorded as
`non_numeric`, a further validation step changes neither fact. -/
lemma validateStep_keeps (c : String) (newCd : ColData)
    (hdt : newCd.numericDtype = true) (st : ColTable × Report) (col : String)
    (h1 : st.1.lookup c = some newCd) (h2 : c ∈ st.2.non_numeric) :
    (validateStep st col).1.lookup c = some newCd ∧
    c ∈ (validateStep st col).2.non_numeric := by
  unfold validateStep
  cases hl : st.1.lookup col with
  | none => exact ⟨h1, h2⟩
  | some cd1 =>
    by_cases hnum : cd1.numericDtype
    · simp only [hnum, if_true]
      exact ⟨h1, h2⟩
    · simp only [hnum, if_false, Bool.false_eq_true]
      by_cases hcol : col = c
      · subst hcol
        rw [h1] at hl
        cases hl
        rw [hdt] at hnum
        simp at hnum
      · refine ⟨?_, List.mem_append_left _ h2⟩
        rw [lookup_setCol_ne _ _ _ _ (Ne.symm hcol)]
        exact h1

/-- `validateStep_keeps`, iterated over the rest of the loop. -/
lemma foldl_validateStep_keeps (c : String) (newCd : ColData)
    (hdt : newCd.numericDtype = true) :
    ∀ (cols : List String) (st : ColTable × Report),
      st.1.lookup c = some newCd → c ∈ st.2.non_numeric →
      (cols.foldl validateStep st).1.lookup c = some newCd ∧
      c ∈ (cols.foldl validateStep st).2.non_numeric := by
  intro cols
  induction cols with
  | nil => intro st h1 h2; exact ⟨h1, h2⟩
  | cons col t ih =>
    intro st h1 h2
    have h := validateStep_keeps c newCd hdt st col h1 h2
    exact ih (validateStep st col) h.1 h.2

/-- Running the loop over a column list containing `c`, starting from a
state in which `c` holds a non-numeric-dtype column, coerces that column
and records it. -/
lemma foldl_validateStep_coerces (c : String) (cd : ColData)
    (hdt : cd.numericDtype = false) :
    ∀ (cols : List String) (st : ColTable × Report), c ∈ cols →
      st.1.lookup c = some cd →
      (cols.foldl validateStep st).1.lookup c = some (coerceColumn cd) ∧
      c ∈ (cols.foldl validateStep st).2.non_numeric := by
  intro cols
  induction cols with
  | nil => intro st hmem; simp at hmem
  | cons col t ih =>
    intro st hmem hlook
    by_cases hcol : col = c
    · subst hcol
      have hstep : validateStep st col =
          (setCol st.1 col (coerceColumn cd),
           { st.2 with non_numeric := st.2.non_numeric ++ [col] }) := by
        simp [validateStep, hlook, hdt]
      rw [List.foldl_cons, hstep]
      apply foldl_validateStep_keeps col (coerceColumn cd) rfl
      · exact lookup_setCol_self st.1 col cd (coerceColumn cd) hlook
      · exact List.mem_append_right _ (List.mem_singleton.mpr rfl)
    · have hmem' : c ∈ t := by
        rcases List.mem_cons.mp hmem with h | h
        · exact absurd h.symm hcol
        · exact h
      rw [List.foldl_cons]
      apply ih _ hmem'
      unfold validateStep
      cases hl : st.1.lookup col with
      | none => exact hlook
      | some cd1 =>
        by_cases hnum : cd1.numericDtype
        · simp only [hnum, if_true]
          exact hlook
        · simp only [hnum, if_false, Bool.false_eq_true]
          rw [lookup_setCol_ne _ _ _ _ (fun h => hcol h.symm)]
          exact hlook

/-- Filling in `missing_coords` does not touch the `non_numeric` list. -/
lemma coordReport_non_numeric (d : ColTable) (rep : Report) :
    (coordReport d rep).non_numeric = rep.non_numeric := by
  unfold coordReport
  cases d.lookup "latitude" <;> cases d.lookup "longitude" <;> rfl

/-- C10: `validate_dataframe` mutates its input in place — a required
metal column present with non-numeric dtype is overwritten with its
numeric coercion (so non-coercible entries become NaN in the caller's
table) and the column name is recorded in the report's `non_numeric`
list. -/
theorem C10_validate_in_place (df : ColTable) (required : List String)
    (c : String) (cd : ColData) (hmem : c ∈ required)
    (hlook : df.lookup c = some cd) (hdt : cd.numericDtype = false) :
    (validate_dataframe df required).1.lookup c = some (coerceColumn cd) ∧
    c ∈ (validate_dataframe df required).2.2.non_numeric ∧
    coerceColumn cd = { numericDtype := true, vals := cd.vals.map coerceCell } ∧
    coerceCell (Cell.text none) = Cell.nan := by
  have h := foldl_validateStep_coerces c cd hdt required
    (df, { missing_columns := [], non_numeric := [], missing_coords := 0,
           rows := nRows df, median_magnitude := [] }) hmem hlook
  unfold validate_dataframe
  refine ⟨h.1, ?_, rfl, rfl⟩
  simpa [coordReport_non_numeric] using h.2

/-- Witness for C10: a text column with one coercible and one
non-coercible entry. -/
theorem C10_witness :
    (validate_dataframe
        [("Pb", ⟨false, [Cell.text (some 2), Cell.text none]⟩)]
        ["Pb"]).1.lookup "Pb" =
      some (coerceColumn ⟨false, [Cell.text (some 2), Cell.text none]⟩) ∧
    "Pb" ∈ (validate_dataframe
        [("Pb", ⟨false, [Cell.text (some 2), Cell.text none]⟩)]
        ["Pb"]).2.2.non_numeric := by
  have h := C10_validate_in_place
    [("Pb", ⟨false, [Cell.text (some 2), Cell.text none]⟩)] ["Pb"] "Pb"
    ⟨false, [Cell.text (some 2), Cell.text none]⟩
    (List.mem_singleton.mpr rfl) rfl rfl
  exact ⟨h.1, h.2.1⟩

end HMPI
